import Mathlib

/-!
Shallow embedding of `generate_figures_modular.py` (AS survey figure
generation script) and verification of the layout and aggregation claims.

The source computes chart geometry with exact decimal arithmetic on small
literals; we model all numeric values as rationals (`ℚ`).  Decimal literals
such as `44.44` are exact in `ℚ`, and every claim either states exact
formulas or allows a tolerance of `1e-2`, far above any float rounding in
the source, so the rational model is faithful for every property below.
-/

namespace GenerateFigures

/-- Sample size constant `TOTAL_PROGRAMS = 27` from the configuration
section of the script. -/
def TOTAL_PROGRAMS : ℚ := 27

/-- Color constant `COLOR_POSITIVE = '#2C7BB6'`. -/
def COLOR_POSITIVE : String := "#2C7BB6"

/-- Color constant `COLOR_NEGATIVE = '#D7191C'`. -/
def COLOR_NEGATIVE : String := "#D7191C"

/-- Error kinds named by the spec for the aggregate calculator:
`DivisionError` (zero denominator, Python `ZeroDivisionError`) and
`InvalidInputError` (mismatched input lengths).  The source itself only
ever produces the former. -/
inductive CalcError where
  | divisionByZero
  | invalidInput
deriving DecidableEq

/-- Midpoint table `midpoints = [12.5, 37.5, 62.5, 87.5]` from
`calculate_interest_career_stats`. -/
def midpoints : List ℚ := [12.5, 37.5, 62.5, 87.5]

/-- Hard-coded `interest_counts = [11, 10, 5, 1]`. -/
def interest_counts : List ℚ := [11, 10, 5, 1]

/-- Hard-coded `career_counts = [20, 4, 3, 0]`. -/
def career_counts : List ℚ := [20, 4, 3, 0]

/-- The weighted-average kernel of `calculate_interest_career_stats`
(source lines 73-74): `sum([m * c for m, c in zip(midpoints, counts)]) /
sample_size`, parametrized over its operands as in spec 4.1.  Python's
`zip` silently truncates to the shorter of the two lists, and the only
error Python raises in this expression is `ZeroDivisionError` when the
divisor is zero (the operands are scalars, so this is scalar float
division, which does raise). -/
def weighted_midpoint_average (counts mids : List ℚ) (sample_size : ℚ) :
    Except CalcError ℚ :=
  if sample_size = 0 then .error .divisionByZero
  else .ok ((List.zipWith (fun m c => m * c) mids counts).sum / sample_size)

/-- `calculate_interest_career_stats`: returns `(avg_interest, avg_career)`
computed from the hard-coded count lists and `TOTAL_PROGRAMS`. -/
def calculate_interest_career_stats : ℚ × ℚ :=
  ((List.zipWith (fun m c => m * c) midpoints interest_counts).sum / TOTAL_PROGRAMS,
   (List.zipWith (fun m c => m * c) midpoints career_counts).sum / TOTAL_PROGRAMS)

/-- Result of a numpy elementwise true division: numpy does not raise on a
zero divisor; it produces `inf`, `-inf` or `nan` (with a `RuntimeWarning`
under the default error state, which is not an exception). -/
inductive NpFloat where
  | finite (q : ℚ)
  | posInf
  | negInf
  | nan
deriving DecidableEq

/-- Numpy elementwise division `a / b`: exact quotient when `b ≠ 0`,
otherwise the IEEE-style non-finite results numpy returns. -/
def npDiv (a b : ℚ) : NpFloat :=
  if b ≠ 0 then .finite (a / b)
  else if 0 < a then .posInf
  else if a < 0 then .negInf
  else .nan

/-- Multiplication of a numpy division result by the positive scalar `100`
(the `* 100` in the percentage conversions); non-finite values are
preserved. -/
def npMul100 : NpFloat → NpFloat
  | .finite q => .finite (q * 100)
  | .posInf => .posInf
  | .negInf => .negInf
  | .nan => .nan

/-- The percentage conversion of `create_figure1` (source lines 154-158):
`counts / total * 100` on a numpy integer array.  Numpy's `true_divide`
never raises on a zero divisor (it emits a warning and returns non-finite
values), so the operation always returns `.ok`; the `Except` wrapper
records that no `CalcError` escapes this code. -/
def percentage_of_total (counts : List ℚ) (total : ℚ) :
    Except CalcError (List NpFloat) :=
  .ok (counts.map fun c => npMul100 (npDiv c total))

/-- One emitted horizontal-bar segment: the `left=` offset and the width
passed to `ax.barh`. -/
structure Seg where
  start : ℚ
  width : ℚ
deriving DecidableEq

/-- Five-bucket percentages for one category of the Mode A (diverging)
layout, in the order very-negative, somewhat-negative, neutral,
somewhat-positive, very-positive. -/
structure Likert where
  very_neg : ℚ
  somewhat_neg : ℚ
  neutral : ℚ
  somewhat_pos : ℚ
  very_pos : ℚ

/-- The five segments `create_figure1` emits for one category (source
lines 160-199), in emission order: very dissatisfied, somewhat
dissatisfied, neither, somewhat satisfied, very satisfied.  The source
computes these elementwise on arrays; the arithmetic per category is
exactly as below. -/
def create_figure1_segments (p : Likert) : List Seg :=
  let neutral_half := p.neutral / 2
  let dissatisfied_total := p.somewhat_neg + p.very_neg
  let very_dissatisfied_start := -(neutral_half + dissatisfied_total)
  let somewhat_dissatisfied_start := very_dissatisfied_start + p.very_neg
  [⟨very_dissatisfied_start, p.very_neg⟩,
   ⟨somewhat_dissatisfied_start, p.somewhat_neg⟩,
   ⟨-neutral_half, p.neutral⟩,
   ⟨neutral_half, p.somewhat_pos⟩,
   ⟨neutral_half + p.somewhat_pos, p.very_pos⟩]

/-- The three optional numeric labels `create_figure1` emits for one
category (source lines 222-248): combined dissatisfied total, neither,
combined satisfied total.  Each entry is `some (x, value)` — the
horizontal text position and the displayed value — exactly when the
corresponding `> 5` guard in the source fires, else `none`. -/
def create_figure1_labels (p : Likert) : List (Option (ℚ × ℚ)) :=
  let neutral_half_i := p.neutral / 2
  let dissatisfied_total_i := p.somewhat_neg + p.very_neg
  let satisfied_total_i := p.somewhat_pos + p.very_pos
  let dissatisfied_left := -(neutral_half_i + dissatisfied_total_i)
  [if dissatisfied_total_i > 5 then
     some (dissatisfied_left + dissatisfied_total_i / 2, dissatisfied_total_i)
   else none,
   if p.neutral > 5 then some (0, p.neutral) else none,
   if satisfied_total_i > 5 then
     some (neutral_half_i + satisfied_total_i / 2, satisfied_total_i)
   else none]

/-- Midpoint of the axis interval `[a, b]`. -/
def midpointOf (a b : ℚ) : ℚ := (a + b) / 2

/-- Successive segments are adjacent: each segment starts exactly where
the previous one ends (no gap, no overlap). -/
def adjacentChain : List Seg → Prop
  | a :: b :: rest => b.start = a.start + a.width ∧ adjacentChain (b :: rest)
  | _ => True

/-- Lexicographic order on `(value, original index)` pairs: strictly
smaller value first, ties by original index. -/
def pairLE (a b : ℚ × Nat) : Prop := a.1 < b.1 ∨ (a.1 = b.1 ∧ a.2 ≤ b.2)

instance : DecidableRel pairLE := fun a b => by unfold pairLE; infer_instance

instance : IsTotal (ℚ × Nat) pairLE where
  total a b := by
    rcases lt_trichotomy a.1 b.1 with h | h | h
    · exact Or.inl (Or.inl h)
    · rcases Nat.le_total a.2 b.2 with h2 | h2
      · exact Or.inl (Or.inr ⟨h, h2⟩)
      · exact Or.inr (Or.inr ⟨h.symm, h2⟩)
    · exact Or.inr (Or.inl h)

instance : IsTrans (ℚ × Nat) pairLE where
  trans a b c hab hbc := by
    rcases hab with h1 | ⟨h1, h2⟩ <;> rcases hbc with h3 | ⟨h3, h4⟩
    · exact Or.inl (h1.trans h3)
    · exact Or.inl (lt_of_lt_of_le h1 (le_of_eq h3))
    · exact Or.inl (lt_of_le_of_lt (le_of_eq h1) h3)
    · exact Or.inr ⟨h1.trans h3, h2.trans h4⟩

/-- Model of `np.argsort` on a list of rationals: the element indices in
ascending value order, ties broken by original index (stable ascending
sort).  Numpy's default sort runs insertion sort on arrays shorter than
16 elements (all arrays in this program have at most 8), which is stable,
and a stable ascending argsort is exactly the sort of `(value, index)`
pairs by the lexicographic order `pairLE`; `pairLE` is antisymmetric on
pairs with distinct indices, so the sorted output is unique. -/
def argsort (xs : List ℚ) : List Nat :=
  (List.insertionSort pairLE (xs.zip (List.range xs.length))).map Prod.snd

/-- Gap magnitudes `gaps = np.abs(with_curriculum - without_curriculum)`
of `create_figure2` (source line 280). -/
def gapsOf (wc woc : List ℚ) : List ℚ := List.zipWith (fun a b => |a - b|) wc woc

/-- `sorted_indices = np.argsort(gaps)[::-1]` of `create_figure2`
(source line 281): the reversed ascending argsort. -/
def create_figure2_order (wc woc : List ℚ) : List Nat :=
  (argsort (gapsOf wc woc)).reverse

/-- One row of the dumbbell plot of `create_figure2`: `y` is the
vertical position `i`; `pWith`/`pWithout` are `with_sorted[i]` and
`without_sorted[i]`; `connA`/`connB` are the endpoints of the connecting
polyline as passed to `ax.plot` (`[without_sorted[i], with_sorted[i]]`);
`labX`/`labY` is the position of the gap-annotation text
(`mid_point`, `i + 0.35`); `gapVal` is `gaps_sorted[i]`. -/
structure DumbbellRow where
  y : ℚ
  pWith : ℚ
  pWithout : ℚ
  connA : ℚ
  connB : ℚ
  labX : ℚ
  labY : ℚ
  gapVal : ℚ
deriving DecidableEq

instance : Inhabited DumbbellRow := ⟨⟨0, 0, 0, 0, 0, 0, 0, 0⟩⟩

/-- The rows `create_figure2` draws (source lines 279-330): categories in
`sorted_indices` order at vertical positions `0..n-1`, each with its
connector, markers and unconditional gap annotation. -/
def create_figure2_rows (wc woc : List ℚ) : List DumbbellRow :=
  let gaps := gapsOf wc woc
  let ord := create_figure2_order wc woc
  (List.range ord.length).map fun i =>
    let idx := ord.getD i 0
    { y := i
      pWith := wc.getD idx 0
      pWithout := woc.getD idx 0
      connA := woc.getD idx 0
      connB := wc.getD idx 0
      labX := (wc.getD idx 0 + woc.getD idx 0) / 2
      labY := (i : ℚ) + 0.35
      gapVal := gaps.getD idx 0 }

/-- The axis interval covered by a drawn connector polyline: from the
smaller to the larger of its two endpoints. -/
def connSpan (d : DumbbellRow) : ℚ × ℚ := (min d.connA d.connB, max d.connA d.connB)

/-- Claim C8's per-row property: the gap label sits at the horizontal
midpoint of the two values, slightly (0.35) above the row's vertical
position; the connector covers exactly
`[min(p_with, p_without), max(p_with, p_without)]`; and the annotated gap
value is `|p_with - p_without|`. -/
def rowAnnotated (d : DumbbellRow) : Prop :=
  d.labX = (d.pWith + d.pWithout) / 2 ∧
  d.labY = d.y + 0.35 ∧
  connSpan d = (min d.pWith d.pWithout, max d.pWith d.pWithout) ∧
  d.gapVal = |d.pWith - d.pWithout|

/-- Barrier labels of `create_figure3` (source lines 347-354). -/
def figure3_barriers : List String :=
  ["Lack of educator time", "Lack of materials", "None of the above",
   "Lack of AS projects", "Lack of time from fellow", "Lack of AS interventions"]

/-- Barrier percentages of `create_figure3` (source line 356). -/
def figure3_percentages : List ℚ := [44.44, 33.33, 22.22, 14.81, 18.52, 7.41]

/-- Barrier labels re-declared verbatim inside `create_figure3_red`
(source lines 398-405). -/
def figure3_red_barriers : List String :=
  ["Lack of educator time", "Lack of materials", "None of the above",
   "Lack of AS projects", "Lack of time from fellow", "Lack of AS interventions"]

/-- Barrier percentages re-declared verbatim inside `create_figure3_red`
(source line 407). -/
def figure3_red_percentages : List ℚ := [44.44, 33.33, 22.22, 14.81, 18.52, 7.41]

/-- Geometry and styling of one horizontal bar chart: category labels and
bar widths in display order (bottom to top), bar vertical positions,
value-label positions (`width + 1.5`) and displayed values, fill color
and output file name. -/
structure BarChart where
  labels : List String
  y : List Nat
  widths : List ℚ
  valueLabelX : List ℚ
  valueLabelVals : List ℚ
  color : String
  filename : String
deriving DecidableEq

/-- `create_figure3` (source lines 341-390): ascending argsort of the
percentages, bars at `y = 0..n-1` with the sorted percentages as widths,
a value label at `width + 1.5` for every bar, blue (`COLOR_POSITIVE`)
fill, output `Figure3_Barriers.pdf`. -/
def create_figure3 : BarChart :=
  let sorted_indices := argsort figure3_percentages
  let barriers_sorted := sorted_indices.map fun i => figure3_barriers.getD i ""
  let percentages_sorted := sorted_indices.map fun i => figure3_percentages.getD i 0
  { labels := barriers_sorted
    y := List.range barriers_sorted.length
    widths := percentages_sorted
    valueLabelX := percentages_sorted.map fun w => w + 1.5
    valueLabelVals := percentages_sorted
    color := COLOR_POSITIVE
    filename := "Figure3_Barriers.pdf" }

/-- `create_figure3_red` (source lines 392-441): identical computation on
its own copies of the literals, red (`COLOR_NEGATIVE`) fill, output
`Figure3_Barriers_Red.pdf`. -/
def create_figure3_red : BarChart :=
  let sorted_indices := argsort figure3_red_percentages
  let barriers_sorted := sorted_indices.map fun i => figure3_red_barriers.getD i ""
  let percentages_sorted := sorted_indices.map fun i => figure3_red_percentages.getD i 0
  { labels := barriers_sorted
    y := List.range barriers_sorted.length
    widths := percentages_sorted
    valueLabelX := percentages_sorted.map fun w => w + 1.5
    valueLabelVals := percentages_sorted
    color := COLOR_NEGATIVE
    filename := "Figure3_Barriers_Red.pdf" }

/-- Sum of a truncating `zip`-product: the kernel expression of
`calculate_interest_career_stats` equals the index-wise sum over the
shorter of the two lists. -/
theorem zipWith_mul_sum (ms cs : List ℚ) :
    (List.zipWith (fun m c => m * c) ms cs).sum =
      ∑ i in Finset.range (min ms.length cs.length), ms.getD i 0 * cs.getD i 0 := by
  induction ms generalizing cs with
  | nil => simp
  | cons m ms ih =>
    cases cs with
    | nil => simp
    | cons c cs =>
      simp only [List.zipWith, List.sum_cons, ih, List.length_cons,
        Nat.succ_min_succ, Finset.sum_range_succ', List.getD_cons_succ,
        List.getD_cons_zero]
      ring

/-- C1: Mode A diverging layout geometry.  For every category the emitted
segments are: very_neg at `start = -(neutral_half + very_neg +
somewhat_neg)` with `width = very_neg`; somewhat_neg at `start =
very_neg_start + very_neg` with `width = somewhat_neg`; neutral at
`start = -neutral_half` with `width = neutral`; somewhat_pos at
`start = neutral_half` with `width = somewhat_pos`; very_pos at
`start = neutral_half + somewhat_pos` with `width = very_pos`.  In
particular, for input `(3.70, 7.41, 29.63, 51.85, 33.33)` the very_neg
segment has start `-25.93` and width `3.70` and the somewhat_pos segment
has start `14.815` and width `51.85`, within tolerance `1e-2`. -/
theorem c1_modeA_geometry (p : Likert) :
    create_figure1_segments p =
      [⟨-(p.neutral / 2 + p.very_neg + p.somewhat_neg), p.very_neg⟩,
       ⟨-(p.neutral / 2 + p.very_neg + p.somewhat_neg) + p.very_neg, p.somewhat_neg⟩,
       ⟨-(p.neutral / 2), p.neutral⟩,
       ⟨p.neutral / 2, p.somewhat_pos⟩,
       ⟨p.neutral / 2 + p.somewhat_pos, p.very_pos⟩] ∧
    |((create_figure1_segments ⟨3.70, 7.41, 29.63, 51.85, 33.33⟩).getD 0 ⟨0, 0⟩).start
        - (-25.93)| ≤ 1 / 100 ∧
    ((create_figure1_segments ⟨3.70, 7.41, 29.63, 51.85, 33.33⟩).getD 0 ⟨0, 0⟩).width
        = 3.70 ∧
    |((create_figure1_segments ⟨3.70, 7.41, 29.63, 51.85, 33.33⟩).getD 3 ⟨0, 0⟩).start
        - 14.815| ≤ 1 / 100 ∧
    ((create_figure1_segments ⟨3.70, 7.41, 29.63, 51.85, 33.33⟩).getD 3 ⟨0, 0⟩).width
        = 51.85 := by
  refine ⟨?_, by norm_num [create_figure1_segments, abs_le],
    by norm_num [create_figure1_segments],
    by norm_num [create_figure1_segments, abs_le],
    by norm_num [create_figure1_segments]⟩
  simp only [create_figure1_segments, List.cons.injEq, Seg.mk.injEq, and_true]
  and_intros <;> ring_nf

/-- C2: Mode A tiling invariant.  For every category the five emitted
segments form an adjacent chain (each segment's start equals the previous
segment's start plus its width, so they tile the interval from the start
of the very_neg segment to the end of the very_pos segment with no gaps
and no overlaps; in particular the total span equals the sum of the
widths), and the neutral segment is centered at axis coordinate 0: its
start equals minus half its width, regardless of the neutral width. -/
theorem c2_modeA_tiling (p : Likert) :
    adjacentChain (create_figure1_segments p) ∧
    ((create_figure1_segments p).getD 2 ⟨0, 0⟩).start =
      -((create_figure1_segments p).getD 2 ⟨0, 0⟩).width / 2 ∧
    ((create_figure1_segments p).getD 4 ⟨0, 0⟩).start
        + ((create_figure1_segments p).getD 4 ⟨0, 0⟩).width
        - ((create_figure1_segments p).getD 0 ⟨0, 0⟩).start =
      ((create_figure1_segments p).map Seg.width).sum := by
  refine ⟨?_, by simp [create_figure1_segments]; ring,
    by simp [create_figure1_segments]; ring⟩
  simp only [create_figure1_segments, adjacentChain, and_true]
  and_intros <;> ring_nf

/-- C3: Mode A labeling rule.  For every category, the combined
dissatisfied total, the neutral segment and the combined satisfied total
each receive a numeric label iff the corresponding width is strictly
greater than 5 (width exactly 5 gets no label, width 5.01 gets one), and
each emitted label is horizontally centered at the midpoint of the
corresponding span (read off the emitted segments: the dissatisfied span
runs from the start of segment 0 to the end of segment 1, the neutral
span is segment 2, the satisfied span runs from the start of segment 3 to
the end of segment 4). -/
theorem c3_modeA_labels (p : Likert) :
    (((create_figure1_labels p).getD 0 none).isSome
      ↔ p.somewhat_neg + p.very_neg > 5) ∧
    (((create_figure1_labels p).getD 1 none).isSome ↔ p.neutral > 5) ∧
    (((create_figure1_labels p).getD 2 none).isSome
      ↔ p.somewhat_pos + p.very_pos > 5) ∧
    (create_figure1_labels p).getD 0 none =
      (if p.somewhat_neg + p.very_neg > 5 then
        some (midpointOf ((create_figure1_segments p).getD 0 ⟨0, 0⟩).start
                (((create_figure1_segments p).getD 1 ⟨0, 0⟩).start
                  + ((create_figure1_segments p).getD 1 ⟨0, 0⟩).width),
              p.somewhat_neg + p.very_neg)
       else none) ∧
    (create_figure1_labels p).getD 1 none =
      (if p.neutral > 5 then
        some (midpointOf ((create_figure1_segments p).getD 2 ⟨0, 0⟩).start
                (((create_figure1_segments p).getD 2 ⟨0, 0⟩).start
                  + ((create_figure1_segments p).getD 2 ⟨0, 0⟩).width),
              p.neutral)
       else none) ∧
    (create_figure1_labels p).getD 2 none =
      (if p.somewhat_pos + p.very_pos > 5 then
        some (midpointOf ((create_figure1_segments p).getD 3 ⟨0, 0⟩).start
                (((create_figure1_segments p).getD 4 ⟨0, 0⟩).start
                  + ((create_figure1_segments p).getD 4 ⟨0, 0⟩).width),
              p.somewhat_pos + p.very_pos)
       else none) ∧
    (create_figure1_labels ⟨2, 3, 40, 30, 25⟩).getD 0 none = none ∧
    ((create_figure1_labels ⟨2, 3.01, 40, 30, 25⟩).getD 0 none).isSome = true ∧
    (create_figure1_labels ⟨10, 10, 5, 40, 35⟩).getD 1 none = none ∧
    ((create_figure1_labels ⟨10, 10, 5.01, 40, 35⟩).getD 1 none).isSome = true := by
  refine ⟨?_, ?_, ?_, ?_, ?_, ?_, by norm_num [create_figure1_labels],
    by norm_num [create_figure1_labels], by norm_num [create_figure1_labels],
    by norm_num [create_figure1_labels]⟩
  · simp only [create_figure1_labels, List.getD_cons_zero]
    split_ifs with h <;> simp [h]
  · simp only [create_figure1_labels, List.getD_cons_succ, List.getD_cons_zero]
    split_ifs with h <;> simp [h]
  · simp only [create_figure1_labels, List.getD_cons_succ, List.getD_cons_zero]
    split_ifs with h <;> simp [h]
  · simp only [create_figure1_labels, create_figure1_segments, midpointOf,
      List.getD_cons_succ, List.getD_cons_zero]
    split_ifs with h
    · simp only [Option.some.injEq, Prod.mk.injEq, and_true]
      ring
    · rfl
  · simp only [create_figure1_labels, create_figure1_segments, midpointOf,
      List.getD_cons_succ, List.getD_cons_zero]
    split_ifs with h
    · simp only [Option.some.injEq, Prod.mk.injEq, and_true]
      ring
    · rfl
  · simp only [create_figure1_labels, create_figure1_segments, midpointOf,
      List.getD_cons_succ, List.getD_cons_zero]
    split_ifs with h
    · simp only [Option.some.injEq, Prod.mk.injEq, and_true]
      ring
    · rfl

/-- C4: weighted_midpoint_average postcondition.  For every pair of
equal-length operand lists and positive sample size, the computation
returns exactly `(Σ counts[i] * midpoints[i]) / sample_size`. -/
theorem c4_weighted_midpoint_average (counts mids : List ℚ) (n : ℚ)
    (hlen : mids.length = counts.length) (hn : 0 < n) :
    weighted_midpoint_average counts mids n =
      .ok ((∑ i in Finset.range counts.length, counts.getD i 0 * mids.getD i 0) / n) := by
  unfold weighted_midpoint_average
  rw [if_neg (ne_of_gt hn), zipWith_mul_sum, hlen, min_self]
  congr 1
  exact congrArg (· / n) (Finset.sum_congr rfl fun i _ => mul_comm _ _)

/-- Witness for C4: the interest example — midpoints
`(12.5, 37.5, 62.5, 87.5)`, counts `(11, 10, 5, 1)`, sample size 27 —
returns `(11*12.5 + 10*37.5 + 5*62.5 + 1*87.5) / 27`. -/
theorem c4_weighted_midpoint_average_witness :
    midpoints.length = interest_counts.length ∧ (0 : ℚ) < TOTAL_PROGRAMS ∧
    weighted_midpoint_average interest_counts midpoints TOTAL_PROGRAMS =
      .ok ((11 * 12.5 + 10 * 37.5 + 5 * 62.5 + 1 * 87.5) / 27) := by
  refine ⟨by decide, by norm_num [TOTAL_PROGRAMS], ?_⟩
  rw [c4_weighted_midpoint_average interest_counts midpoints TOTAL_PROGRAMS
    (by decide) (by norm_num [TOTAL_PROGRAMS])]
  norm_num [interest_counts, midpoints, TOTAL_PROGRAMS, Finset.sum_range_succ]

/-- C5 counterexample: with mismatched lengths — counts `[11, 10, 5]`,
midpoints `[12.5, 37.5]` — the computation does not fail with
`InvalidInputError`; it silently returns the truncated pairing
`(11*12.5 + 10*37.5) / 27 = 1025/54`. -/
theorem c5_counterexample :
    weighted_midpoint_average [11, 10, 5] [12.5, 37.5] 27 = .ok (1025 / 54) ∧
    weighted_midpoint_average [11, 10, 5] [12.5, 37.5] 27
      ≠ .error .invalidInput := by
  have h1 : weighted_midpoint_average [11, 10, 5] [12.5, 37.5] 27 = .ok (1025 / 54) := by
    norm_num [weighted_midpoint_average]
  refine ⟨h1, ?_⟩
  rw [h1]
  exact fun h => nomatch h

/-- C5 amended: for mismatched input lengths the computation does not
fail; Python's `zip` silently truncates to the shorter list, so the
result is the weighted sum over the first `min(len counts, len midpoints)`
pairs divided by the sample size. -/
theorem c5_zip_truncates (counts mids : List ℚ) (n : ℚ) (hn : 0 < n)
    (_hne : counts.length ≠ mids.length) :
    weighted_midpoint_average counts mids n =
      .ok ((∑ i in Finset.range (min counts.length mids.length),
              counts.getD i 0 * mids.getD i 0) / n) := by
  unfold weighted_midpoint_average
  rw [if_neg (ne_of_gt hn), zipWith_mul_sum, Nat.min_comm]
  congr 1
  exact congrArg (· / n) (Finset.sum_congr rfl fun i _ => mul_comm _ _)

/-- Witness for the amended C5 at the counterexample input. -/
theorem c5_zip_truncates_witness :
    (0 : ℚ) < 27 ∧
    ([11, 10, 5] : List ℚ).length ≠ ([12.5, 37.5] : List ℚ).length ∧
    weighted_midpoint_average [11, 10, 5] [12.5, 37.5] 27 =
      .ok ((∑ i in Finset.range
              (min ([11, 10, 5] : List ℚ).length ([12.5, 37.5] : List ℚ).length),
              ([11, 10, 5] : List ℚ).getD i 0 * ([12.5, 37.5] : List ℚ).getD i 0)
            / 27) := by
  refine ⟨by norm_num, by decide, ?_⟩
  exact c5_zip_truncates [11, 10, 5] [12.5, 37.5] 27 (by norm_num) (by decide)

/-- C6 counterexample: at zero denominator the percentage conversion —
implemented in the source as numpy array division `counts / total * 100`
— does not fail with a `DivisionError`: for counts `[9, 10, 3]` and total
`0` it returns the non-finite values `[inf, inf, inf]`. -/
theorem c6_counterexample :
    percentage_of_total [9, 10, 3] 0 = .ok [.posInf, .posInf, .posInf] ∧
    percentage_of_total [9, 10, 3] 0 ≠ .error .divisionByZero := by
  constructor
  · norm_num [percentage_of_total, npDiv, npMul100]
  · simp [percentage_of_total]

/-- C6 amended: at zero denominator the scalar weighted-average
computation fails with a `DivisionError` (Python `ZeroDivisionError`),
but the numpy-based percentage conversion does not fail — it returns
`inf` for a positive count, `-inf` for a negative count and `nan` for a
zero count (numpy emits only a runtime warning). -/
theorem c6_zero_denominator (counts mids : List ℚ) :
    weighted_midpoint_average counts mids 0 = .error .divisionByZero ∧
    percentage_of_total counts 0 =
      .ok (counts.map fun c =>
        if 0 < c then .posInf else if c < 0 then .negInf else .nan) := by
  constructor
  · simp [weighted_midpoint_average]
  · simp only [percentage_of_total, npDiv, npMul100, Except.ok.injEq]
    refine List.map_congr_left fun a _ => ?_
    split_ifs <;> simp_all

/-- Every pair fed to `argsort` is `(xs[i], i)` for its own index `i`. -/
theorem mem_zip_range {xs : List ℚ} {p : ℚ × Nat}
    (hp : p ∈ xs.zip (List.range xs.length)) :
    p.2 < xs.length ∧ p.1 = xs.getD p.2 0 := by
  obtain ⟨i, hi, he⟩ := List.mem_iff_getElem.mp hp
  have hx : i < xs.length := by simpa using hi
  rw [List.getElem_zip, List.getElem_range] at he
  subst he
  exact ⟨hx, (List.getD_eq_getElem _ _ hx).symm⟩

/-- The index list produced by `argsort` is a permutation of all input
indices. -/
theorem argsort_perm (xs : List ℚ) :
    (argsort xs).Perm (List.range xs.length) := by
  unfold argsort
  have h := (List.perm_insertionSort pairLE (xs.zip (List.range xs.length))).map Prod.snd
  rwa [List.map_snd_zip _ _ (by simp)] at h

/-- The pair list sorted inside `argsort` is strictly ordered by the
`(value, index)` lexicographic order: values ascend, and equal values
appear with ascending original indices (stability). -/
theorem argsort_pairs_pairwise (xs : List ℚ) :
    (List.insertionSort pairLE (xs.zip (List.range xs.length))).Pairwise
      (fun a b => a.1 < b.1 ∨ (a.1 = b.1 ∧ a.2 < b.2)) := by
  have hsorted : (List.insertionSort pairLE (xs.zip (List.range xs.length))).Pairwise pairLE :=
    List.sorted_insertionSort pairLE _
  have hperm := List.perm_insertionSort pairLE (xs.zip (List.range xs.length))
  have h1 : ((xs.zip (List.range xs.length)).map Prod.snd).Nodup := by
    rw [List.map_snd_zip _ _ (by simp)]
    exact List.nodup_range xs.length
  have h2 : ((List.insertionSort pairLE (xs.zip (List.range xs.length))).map Prod.snd).Nodup :=
    ((hperm.map Prod.snd).nodup_iff).mpr h1
  have h3 : (List.insertionSort pairLE (xs.zip (List.range xs.length))).Pairwise
      (fun a b => a.2 ≠ b.2) := List.pairwise_map.mp h2
  exact List.Pairwise.imp
    (fun hab => match hab with
      | ⟨Or.inl h, _⟩ => Or.inl h
      | ⟨Or.inr ⟨h, h4⟩, hne⟩ => Or.inr ⟨h, lt_of_le_of_ne h4 hne⟩)
    (hsorted.and h3)

/-- The input values read off along the `argsort` order ascend. -/
theorem argsort_values_le (xs : List ℚ) :
    (argsort xs).Pairwise (fun i j => xs.getD i 0 ≤ xs.getD j 0) := by
  unfold argsort
  refine List.pairwise_map.mpr ?_
  have hperm := List.perm_insertionSort pairLE (xs.zip (List.range xs.length))
  refine List.Pairwise.imp_of_mem ?_ (argsort_pairs_pairwise xs)
  intro a b ha hb hab
  have h1 := (mem_zip_range (hperm.mem_iff.mp ha)).2
  have h2 := (mem_zip_range (hperm.mem_iff.mp hb)).2
  rw [← h1, ← h2]
  rcases hab with h | ⟨h, _⟩
  · exact le_of_lt h
  · exact le_of_eq h

/-- Reading every index of `range` back through `getD` reproduces the
list. -/
theorem map_getD_range (xs : List ℚ) :
    (List.range xs.length).map (fun i => xs.getD i 0) = xs := by
  apply List.ext_getElem
  · simp
  · intro i h1 h2
    simp [List.getElem?_eq_getElem h2]

/-- The input values read off along the `argsort` order are a permutation
of the input values. -/
theorem argsort_values_perm (xs : List ℚ) :
    ((argsort xs).map fun i => xs.getD i 0).Perm xs := by
  have h := (argsort_perm xs).map fun i => xs.getD i 0
  rwa [map_getD_range] at h

/-- Elementwise description of the gap list. -/
theorem getD_gapsOf {wc woc : List ℚ} {k : Nat}
    (hk : k < (gapsOf wc woc).length) :
    (gapsOf wc woc).getD k 0 = |wc.getD k 0 - woc.getD k 0| := by
  have hmin : k < min wc.length woc.length := by simpa [gapsOf] using hk
  have h1 : k < wc.length := lt_of_lt_of_le hmin (min_le_left _ _)
  have h2 : k < woc.length := lt_of_lt_of_le hmin (min_le_right _ _)
  rw [List.getD_eq_getElem _ _ hk, List.getD_eq_getElem _ _ h1,
    List.getD_eq_getElem _ _ h2]
  simp [gapsOf]

/-- Indexing a map over `range` by a position below `n`. -/
theorem getD_map_range {α : Type} [Inhabited α] {n : Nat} (f : Nat → α) {i : Nat}
    (h : i < n) : ((List.range n).map f).getD i default = f i := by
  rw [List.getD_eq_getElem _ _ (by simpa using h), List.getElem_map, List.getElem_range]

/-- C7 amended: Mode B orders categories by descending gap — for every
input the emitted index order is a permutation of all category indices
along which the gap values never increase — and the concrete example
(gaps `[3.0, 10.0, 1.0]` emitted as `[10.0, 3.0, 1.0]`) holds; however,
when two categories have equal gaps the code emits them in reversed
original input order (it reverses a stable ascending argsort), not in
preserved order: along the emitted order, equal gap values carry strictly
decreasing original indices. -/
theorem c7_modeB_ordering (wc woc : List ℚ) :
    (create_figure2_order wc woc).Perm (List.range (gapsOf wc woc).length) ∧
    (create_figure2_order wc woc).Pairwise (fun i j =>
      (gapsOf wc woc).getD j 0 < (gapsOf wc woc).getD i 0 ∨
        ((gapsOf wc woc).getD i 0 = (gapsOf wc woc).getD j 0 ∧ j < i)) ∧
    (create_figure2_order [3, 10, 1] [0, 0, 0]).map
        (fun i => (gapsOf [3, 10, 1] [0, 0, 0]).getD i 0) = [10, 3, 1] := by
  refine ⟨(List.reverse_perm _).trans (argsort_perm _), ?_, ?_⟩
  · unfold create_figure2_order argsort
    rw [List.pairwise_reverse, List.pairwise_map]
    have hperm := List.perm_insertionSort pairLE
      ((gapsOf wc woc).zip (List.range (gapsOf wc woc).length))
    refine List.Pairwise.imp_of_mem ?_ (argsort_pairs_pairwise (gapsOf wc woc))
    intro a b ha hb hab
    have h1 := (mem_zip_range (hperm.mem_iff.mp ha)).2
    have h2 := (mem_zip_range (hperm.mem_iff.mp hb)).2
    rw [← h1, ← h2]
    rcases hab with h | ⟨h, h3⟩
    · exact Or.inl h
    · exact Or.inr ⟨h.symm, h3⟩
  · norm_num [create_figure2_order, argsort, gapsOf, pairLE, List.insertionSort,
      List.orderedInsert, abs, max_def]

/-- C7 counterexample: for two categories with equal gaps (`p_with =
[10, 20]`, `p_without = [5, 15]`, so both gaps are `5`), the claim
predicts the original input order `[0, 1]`; the code emits `[1, 0]`. -/
theorem c7_counterexample :
    gapsOf [10, 20] [5, 15] = [5, 5] ∧
    create_figure2_order [10, 20] [5, 15] = [1, 0] ∧
    create_figure2_order [10, 20] [5, 15] ≠ [0, 1] := by
  have h : create_figure2_order [10, 20] [5, 15] = [1, 0] := by
    norm_num [create_figure2_order, argsort, gapsOf, pairLE, List.insertionSort,
      List.orderedInsert, abs, max_def]
  refine ⟨by norm_num [gapsOf, abs, max_def], h, ?_⟩
  rw [h]
  simp

/-- C8: Mode B annotation and connector.  For every input there is one
row per category (no suppression threshold), and every emitted row has
its gap label at the horizontal midpoint `(p_with + p_without) / 2`,
placed `0.35` above the row's vertical position, a connector covering
exactly `[min(p_with, p_without), max(p_with, p_without)]`, and gap value
`|p_with - p_without|`; concretely, `p_with = 76.47, p_without = 50.0`
gives gap `26.47` and connector span `[50.0, 76.47]`. -/
theorem c8_modeB_annotations :
    (∀ wc woc : List ℚ,
      (create_figure2_rows wc woc).length = min wc.length woc.length ∧
      ∀ i, i < (create_figure2_rows wc woc).length →
        rowAnnotated ((create_figure2_rows wc woc).getD i default)) ∧
    ((create_figure2_rows [76.47] [50]).getD 0 default).gapVal = 26.47 ∧
    connSpan ((create_figure2_rows [76.47] [50]).getD 0 default) = (50, 76.47) := by
  have hdef : ∀ wc woc : List ℚ, create_figure2_rows wc woc =
      (List.range (create_figure2_order wc woc).length).map fun i =>
        { y := (i : ℚ)
          pWith := wc.getD ((create_figure2_order wc woc).getD i 0) 0
          pWithout := woc.getD ((create_figure2_order wc woc).getD i 0) 0
          connA := woc.getD ((create_figure2_order wc woc).getD i 0) 0
          connB := wc.getD ((create_figure2_order wc woc).getD i 0) 0
          labX := (wc.getD ((create_figure2_order wc woc).getD i 0) 0 +
                    woc.getD ((create_figure2_order wc woc).getD i 0) 0) / 2
          labY := (i : ℚ) + 0.35
          gapVal := (gapsOf wc woc).getD ((create_figure2_order wc woc).getD i 0) 0 } :=
    fun _ _ => rfl
  refine ⟨fun wc woc => ⟨?_, ?_⟩, ?_, ?_⟩
  · rw [hdef]
    simp [create_figure2_order, argsort, gapsOf, List.length_insertionSort]
  · intro i hi
    have hio : i < (create_figure2_order wc woc).length := by
      simpa [hdef] using hi
    rw [hdef, getD_map_range _ hio]
    have hperm : (create_figure2_order wc woc).Perm
        (List.range (gapsOf wc woc).length) :=
      (List.reverse_perm _).trans (argsort_perm _)
    have hidx : (create_figure2_order wc woc).getD i 0 ∈ create_figure2_order wc woc := by
      rw [List.getD_eq_getElem _ _ hio]
      exact List.getElem_mem _
    have hlt : (create_figure2_order wc woc).getD i 0 < (gapsOf wc woc).length :=
      List.mem_range.mp (hperm.mem_iff.mp hidx)
    refine ⟨rfl, rfl, ?_, ?_⟩
    · simp only [connSpan, Prod.mk.injEq]
      exact ⟨min_comm _ _, max_comm _ _⟩
    · exact getD_gapsOf hlt
  · norm_num [create_figure2_rows, create_figure2_order, argsort, gapsOf, pairLE,
      List.insertionSort, List.orderedInsert, abs, max_def]
  · norm_num [create_figure2_rows, create_figure2_order, argsort, gapsOf, pairLE,
      List.insertionSort, List.orderedInsert, abs, max_def, connSpan, min_def]

/-- Witness for C8 at the concrete example `p_with = 76.47, p_without =
50.0`: the single emitted row satisfies the per-row annotation and
connector property. -/
theorem c8_modeB_annotations_witness :
    0 < (create_figure2_rows [76.47] [50]).length ∧
    rowAnnotated ((create_figure2_rows [76.47] [50]).getD 0 default) := by
  have h0 : 0 < (create_figure2_rows [76.47] [50]).length := by
    rw [(c8_modeB_annotations.1 [76.47] [50]).1]
    norm_num
  exact ⟨h0, (c8_modeB_annotations.1 [76.47] [50]).2 0 h0⟩

/-- C9: determinism of both layout modes.  The embedded layout
computations are pure functions of their inputs — the source reads only
its arguments and module-level constants and uses no randomness and no
mutable cross-call state — so two runs on identical inputs produce
identical segment descriptors, identical labels, identical dumbbell rows
and the identical ordering. -/
theorem c9_determinism :
    (∀ p : Likert, create_figure1_segments p = create_figure1_segments p ∧
      create_figure1_labels p = create_figure1_labels p) ∧
    (∀ wc woc : List ℚ,
      create_figure2_rows wc woc = create_figure2_rows wc woc ∧
      create_figure2_order wc woc = create_figure2_order wc woc) :=
  ⟨fun _ => ⟨rfl, rfl⟩, fun _ _ => ⟨rfl, rfl⟩⟩

/-- C10: the two barriers charts compute identical geometry — same
labels, same vertical positions, same widths (the ascending sort of the
same percentages, so the bar at position `i` carries the `i`-th smallest
percentage: the widths ascend and are a permutation of the input), same
value-label positions and values — and differ only in the fill color
(`COLOR_POSITIVE` versus `COLOR_NEGATIVE`) and the output file name. -/
theorem c10_figure3_variants :
    create_figure3.labels = create_figure3_red.labels ∧
    create_figure3.y = create_figure3_red.y ∧
    create_figure3.widths = create_figure3_red.widths ∧
    create_figure3.valueLabelX = create_figure3_red.valueLabelX ∧
    create_figure3.valueLabelVals = create_figure3_red.valueLabelVals ∧
    create_figure3.color = COLOR_POSITIVE ∧
    create_figure3_red.color = COLOR_NEGATIVE ∧
    create_figure3.color ≠ create_figure3_red.color ∧
    create_figure3.filename ≠ create_figure3_red.filename ∧
    create_figure3.widths.Pairwise (· ≤ ·) ∧
    create_figure3.widths.Perm figure3_percentages := by
  refine ⟨rfl, rfl, rfl, rfl, rfl, rfl, rfl, by decide, by decide, ?_, ?_⟩
  · exact List.pairwise_map.mpr (argsort_values_le figure3_percentages)
  · exact argsort_values_perm figure3_percentages

end GenerateFigures
